import Mathlib

/-
Verification of the PyIntuition message-cache library
(src/pyintuition/__init__.py) against its specification.

The `Intuition` class is shallowly embedded below.  Python dictionaries
become association lists, `datetime` values become integers (seconds),
exceptions become an explicit `Except Err` result, the file system becomes
an explicit map from path to file record, and the network becomes an
oracle function from (domain, language) to an optional response document
(`none` modelling a network-level failure of `urllib2.urlopen`).  Each
top-level operation receives the current clock value `now` explicitly and
threads the mutable object state (`domain_cache` plus the file system)
through, returning alongside the result an `Effects` record counting
network fetches, file writes and file reads.
-/

set_option autoImplicit false

namespace PyIntuition

/-- A message set: a Python dict from message key to localized message
(`json_result['messages'][domain]` in the source). -/
abbrev MessageSet := List (String × String)

/-- A parsed response document, shape
`\x7b "messages": \x7b "<domain>": ... \x7d, "error": "<optional>" \x7d`.
`error = some e` models the key `error` being present; `messages = none`
models the key `messages` being absent. -/
structure Document where
  error : Option String
  messages : Option (List (String × MessageSet))
deriving DecidableEq

/-- An on-disk file for one (domain, language) pair: the verbatim last
downloaded response together with the file's modification time
(`os.path.getmtime`). -/
structure FileRec where
  content : Document
  mtime : Int
deriving DecidableEq

/-- One in-memory cache slot, `self.domain_cache[domain][language]` in the
source: the dict `\x7b'messages': ..., 'update': ...\x7d`. -/
structure CacheEntry where
  messages : MessageSet
  update : Int
deriving DecidableEq

/-- The file system: a map from path to file record. -/
abbrev Files := List (String × FileRec)

/-- The in-memory cache.  The source uses a dict of dicts
(`domain_cache[domain][language]`); keying a single map by the pair
(domain, language) is equivalent, with `none` standing for Python's
`None` as a language value. -/
abbrev DomainCache := List ((String × Option String) × CacheEntry)

/-- The mutable state of an `Intuition` instance together with the file
system it manipulates. -/
structure IState where
  domain_cache : DomainCache
  files : Files
deriving DecidableEq

/-- Effect counters for one operation: network fetches
(`urllib2.urlopen`), file writes and file reads. -/
structure Effects where
  fetches : Nat
  file_writes : Nat
  file_reads : Nat
deriving DecidableEq

/-- No effects. -/
def Effects.zero : Effects := ⟨0, 0, 0⟩

/-- Componentwise sum of effect counters. -/
def Effects.add (a b : Effects) : Effects :=
  ⟨a.fetches + b.fetches, a.file_writes + b.file_writes,
   a.file_reads + b.file_reads⟩

/-- The immutable configuration of an `Intuition` instance: the
constructor arguments plus `self.language` (the value `init_language`
produced at construction time). -/
structure Config where
  default_domain : Option String
  default_language : Option String
  translation_path : String
  update_on_missing : Bool
  cache_time : Int
  language : Option String

/-- The errors the embedded operations can raise.  Python exception
classes are mapped as follows: `configError` is
`ValueError('No domain given!')` (the spec's ConfigurationError),
`lookupFailed` is `ValueError('No message for that key!')` (the spec's
LookupError), `invalidDomain` is `ValueError('Illegal domain given: ...')`
(the spec's InvalidDomainError), `remoteError` is
`Exception(json_result['error'])` (the spec's RemoteError), `fetchError`
is a `urllib2` failure (the spec's FetchError), `keyError` is a Python
`KeyError` from a dict subscript, `ioError` is a failure of `open`,
`cookieKeyError` is the `KeyError` raised by `os.environ['HTTP_COOKIE']`,
and `unpackValueError` is the `ValueError` raised by unpacking
`cookie.split('=')` into `(key, value)`. -/
inductive Err where
  | configError
  | lookupFailed (key : String)
  | invalidDomain (domain : String)
  | remoteError (msg : String)
  | fetchError
  | keyError (key : String)
  | ioError (path : String)
  | cookieKeyError
  | unpackValueError
deriving DecidableEq

/-- The network oracle: given a domain and a language, the parsed document
the remote service would answer with, or `none` for a network failure. -/
abbrev Net := String → Option String → Option Document

/-- First value bound to a key in an association list (Python dict
lookup / `in` test). -/
def alist_get {α β : Type} [DecidableEq α] : List (α × β) → α → Option β
  | [], _ => none
  | (a, b) :: t, k => if a = k then some b else alist_get t k

/-- Bind a key to a value in an association list (Python dict item
assignment): replaces the first binding of the key, or appends. -/
def alist_set {α β : Type} [DecidableEq α] : List (α × β) → α → β → List (α × β)
  | [], k, v => [(k, v)]
  | (a, b) :: t, k, v => if a = k then (a, v) :: t else (a, b) :: alist_set t k v

/-- The cookie key the language is read from (`COOKIE_USERLANG`). -/
def COOKIE_USERLANG : String := "TsIntuition_userlang"

/-- How Python renders a possibly-`None` language inside
`'\x7b\x7d/\x7b\x7d_\x7b\x7d.json'.format(...)`: `None` prints as `"None"`. -/
def py_str_opt : Option String → String
  | some s => s
  | none => "None"

/-- Splitting a character list at every occurrence of a separator,
keeping empty pieces — the semantics of Python's `str.split(sep)` for a
one-character separator. -/
def split_chars (sep : Char) : List Char → List (List Char)
  | [] => [[]]
  | c :: rest =>
    if c = sep then [] :: split_chars sep rest
    else
      match split_chars sep rest with
      | [] => [[c]]
      | h :: t => (c :: h) :: t

/-- Python's `s.split(sep)` for a one-character separator. -/
def py_split (sep : Char) (s : String) : List String :=
  (split_chars sep s.toList).map (fun cs => String.mk cs)

/-- The scanning loop of `init_language` over the semicolon-separated
cookie pieces: the first piece that splits on `=` into exactly a key and
a value and whose key is `COOKIE_USERLANG` yields its value; a piece that
does not split into exactly two parts makes the tuple unpacking
`(key, value) = cookie.split('=')` raise `ValueError`; if the loop
finishes, the default language is returned. -/
def scan_cookies (default_language : Option String) :
    List String → Except Err (Option String)
  | [] => Except.ok default_language
  | cookie :: rest =>
    match py_split '=' cookie with
    | [k, v] =>
      if k = COOKIE_USERLANG then Except.ok (some v)
      else scan_cookies default_language rest
    | _ => Except.error Err.unpackValueError

/-- `Intuition.init_language` (source lines 70-82).  `http_cookie` is
`os.environ`'s binding of `HTTP_COOKIE`; when it is absent the subscript
raises `KeyError`.  Note: line 79 of the source literally reads
`if key = Intuition.COOKIE_USERLANG:`; we read `=` as the equality test
`==` that the docstring and the surrounding code intend. -/
def init_language (default_language : Option String)
    (http_cookie : Option String) : Except Err (Option String) :=
  match http_cookie with
  | none => Except.error Err.cookieKeyError
  | some c => scan_cookies default_language (py_split ';' c)

/-- `Intuition.is_outdated` (lines 179-185):
`datetime.datetime.now() - self.cache_time > timestamp`. -/
def is_outdated (cfg : Config) (now timestamp : Int) : Bool :=
  decide (now - cfg.cache_time > timestamp)

/-- `Intuition.is_file_outdated` (lines 162-168) over the explicit file
system.  The source calls `os.path.getmtime` unconditionally; it is only
ever invoked on an existing path (guarded by `os.path.exists`), so the
`none` branch is arbitrary. -/
def is_file_outdated (cfg : Config) (now : Int) (files : Files)
    (path : String) : Bool :=
  match alist_get files path with
  | some f => is_outdated cfg now f.mtime
  | none => false

/-- `Intuition.is_cache_outdated` (lines 170-177) over the explicit
cache; only called when the entry exists. -/
def is_cache_outdated (cfg : Config) (now : Int) (cache : DomainCache)
    (domain : String) (language : Option String) : Bool :=
  match alist_get cache (domain, language) with
  | some entry => is_outdated cfg now entry.update
  | none => false

/-- The file path for a (domain, language) pair (line 143):
`'\x7b\x7d/\x7b\x7d_\x7b\x7d.json'.format(self.translation_path, domain, language)`. -/
def domain_path (cfg : Config) (domain : String) (language : Option String) : String :=
  cfg.translation_path ++ "/" ++ domain ++ "_" ++ py_str_opt language ++ ".json"

/-- The download condition of `read_domain` (line 145):
`force_download or not os.path.exists(domain_path) or self.is_file_outdated(domain_path)`. -/
def refresh_needed (cfg : Config) (now : Int) (files : Files)
    (path : String) (force_download : Bool) : Bool :=
  force_download || !(alist_get files path).isSome
    || is_file_outdated cfg now files path

/-- The parsing step of `read_domain` (lines 153-160): raise
`Exception(json_result['error'])` when the `error` key is present;
otherwise subscript `json_result['messages'][domain]` (each missing key a
Python `KeyError`); raise `ValueError('Illegal domain given: ...')` when
the resulting dict is empty (falsy); otherwise return it. -/
def parse_document (doc : Document) (domain : String) : Except Err MessageSet :=
  match doc.error with
  | some e => Except.error (Err.remoteError e)
  | none =>
    match doc.messages with
    | none => Except.error (Err.keyError "messages")
    | some m =>
      match alist_get m domain with
      | none => Except.error (Err.keyError domain)
      | some messages =>
        if messages = [] then Except.error (Err.invalidDomain domain)
        else Except.ok messages

/-- `Intuition.read_domain` (lines 135-160).  When a download is needed,
the raw response is written over the file (its modification time becoming
`now`) before the file is re-read and parsed — so a service-reported
error or an invalid domain is raised only after the file was already
overwritten.  A network failure leaves the file system unchanged.  The
re-opening of the just-ensured file cannot fail; the `ioError` branch
models `open` raising on a missing path and is unreachable. -/
def read_domain (cfg : Config) (net : Net) (now : Int) (files : Files)
    (domain : String) (language : Option String) (force_download : Bool) :
    Except Err MessageSet × Files × Effects :=
  if refresh_needed cfg now files (domain_path cfg domain language) force_download then
    match net domain language with
    | none => (Except.error Err.fetchError, files, ⟨1, 0, 0⟩)
    | some doc =>
      (parse_document doc domain,
       alist_set files (domain_path cfg domain language) ⟨doc, now⟩, ⟨1, 1, 1⟩)
  else
    match alist_get files (domain_path cfg domain language) with
    | some f => (parse_document f.content domain, files, ⟨0, 0, 1⟩)
    | none =>
      (Except.error (Err.ioError (domain_path cfg domain language)), files, ⟨0, 0, 0⟩)

/-- The resolution `if language is None: language = self.language` at the
top of `get_domain` (lines 113-114). -/
def resolve_language (cfg : Config) (language : Option String) : Option String :=
  match language with
  | none => cfg.language
  | some l => some l

/-- The `domain_present` flag of `get_domain` (lines 116-120): the entry
exists and is not outdated. -/
def domain_present (cfg : Config) (now : Int) (cache : DomainCache)
    (domain : String) (language : Option String) : Bool :=
  match alist_get cache (domain, language) with
  | some entry => !(is_outdated cfg now entry.update)
  | none => false

/-- `Intuition.get_domain` (lines 105-133).  When the entry is missing,
outdated, or `force_download` is set, `read_domain` runs; on its success
the slot is overwritten wholesale with the fresh messages stamped `now`;
on its failure the exception propagates with the cache untouched (but any
file write `read_domain` already performed persists). -/
def get_domain (cfg : Config) (net : Net) (now : Int) (s : IState)
    (domain : String) (language : Option String) (force_download : Bool) :
    Except Err MessageSet × IState × Effects :=
  if !(domain_present cfg now s.domain_cache domain (resolve_language cfg language))
      || force_download then
    match read_domain cfg net now s.files domain (resolve_language cfg language)
        force_download with
    | (Except.error e, files2, eff) =>
      (Except.error e, { s with files := files2 }, eff)
    | (Except.ok messages, files2, eff) =>
      (Except.ok messages,
       { domain_cache := alist_set s.domain_cache
           (domain, resolve_language cfg language) ⟨messages, now⟩,
         files := files2 },
       eff)
  else
    match alist_get s.domain_cache (domain, resolve_language cfg language) with
    | some entry => (Except.ok entry.messages, s, Effects.zero)
    | none => (Except.error (Err.keyError domain), s, Effects.zero)

/-- The domain resolution at the top of `get` (lines 91-94): an explicit
domain wins; otherwise the default domain; `ValueError('No domain
given!')` when neither exists. -/
def resolve_domain (cfg : Config) (domain : Option String) : Option String :=
  match domain with
  | none => cfg.default_domain
  | some d => some d

/-- `Intuition.get` (lines 84-103).  Note that the first `get_domain`
call (line 95) passes no language at all — the explicit `language`
argument is only forwarded to the forced re-download performed when the
key is missing and `update_on_missing` is set. -/
def get (cfg : Config) (net : Net) (now : Int) (s : IState)
    (key : String) (domain : Option String) (language : Option String) :
    Except Err String × IState × Effects :=
  match resolve_domain cfg domain with
  | none => (Except.error Err.configError, s, Effects.zero)
  | some domain =>
    match get_domain cfg net now s domain none false with
    | (Except.error e, s1, eff1) => (Except.error e, s1, eff1)
    | (Except.ok messages, s1, eff1) =>
      if (alist_get messages key).isNone && cfg.update_on_missing then
        match get_domain cfg net now s1 domain language true with
        | (Except.error e, s2, eff2) =>
          (Except.error e, s2, Effects.add eff1 eff2)
        | (Except.ok messages2, s2, eff2) =>
          match alist_get messages2 key with
          | none => (Except.error (Err.lookupFailed key), s2, Effects.add eff1 eff2)
          | some v => (Except.ok v, s2, Effects.add eff1 eff2)
      else
        match alist_get messages key with
        | none => (Except.error (Err.lookupFailed key), s1, eff1)
        | some v => (Except.ok v, s1, eff1)

/-! ### General lemmas about the embedding -/

theorem alist_get_set {α β : Type} [DecidableEq α] (l : List (α × β)) (k k2 : α) (v : β) :
    alist_get (alist_set l k v) k2 = if k = k2 then some v else alist_get l k2 := by
  induction l with
  | nil => by_cases h : k = k2 <;> simp [alist_set, alist_get, h]
  | cons hd t ih =>
    obtain ⟨a, b⟩ := hd
    by_cases h1 : a = k
    · subst h1
      by_cases h2 : a = k2 <;> simp [alist_set, alist_get, h2]
    · by_cases h2 : a = k2
      · subst h2
        have h3 : ¬(k = a) := fun h => h1 h.symm
        simp [alist_set, alist_get, h1, h3]
      · simp [alist_set, alist_get, h1, h2, ih]

theorem read_domain_fetches (cfg : Config) (net : Net) (now : Int) (files : Files)
    (domain : String) (language : Option String) (force_download : Bool) :
    (read_domain cfg net now files domain language force_download).2.2.fetches =
      if refresh_needed cfg now files (domain_path cfg domain language) force_download
      then 1 else 0 := by
  unfold read_domain
  split
  next => cases net domain language <;> rfl
  next => cases alist_get files (domain_path cfg domain language) <;> rfl

theorem refresh_needed_iff (cfg : Config) (now : Int) (files : Files)
    (path : String) (force_download : Bool) :
    refresh_needed cfg now files path force_download = true ↔
      (force_download = true ∨ alist_get files path = none ∨
       ∃ f, alist_get files path = some f ∧ now - f.mtime > cfg.cache_time) := by
  unfold refresh_needed is_file_outdated is_outdated
  cases halist : alist_get files path with
  | none => simp [halist]
  | some f =>
    simp [halist]
    constructor
    · rintro (h | h)
      · exact Or.inl h
      · exact Or.inr (by omega)
    · rintro (h | h)
      · exact Or.inl h
      · exact Or.inr (by omega)

/-! ### The claims -/

/-- C1: for every (domain, language) pair, `read_domain` (PersistentStore's
load) goes to the network if and only if `force_download` is true, or the
file does not exist, or the file is stale, where stale means
`now - file_modified_time > cache_time` with a strict comparison. -/
theorem c1_load_refreshes_iff (cfg : Config) (net : Net) (now : Int) (files : Files)
    (domain : String) (language : Option String) (force_download : Bool) :
    (read_domain cfg net now files domain language force_download).2.2.fetches ≠ 0 ↔
      (force_download = true ∨
       alist_get files (domain_path cfg domain language) = none ∨
       ∃ f, alist_get files (domain_path cfg domain language) = some f ∧
         now - f.mtime > cfg.cache_time) := by
  rw [← refresh_needed_iff cfg now files (domain_path cfg domain language) force_download,
    Ne, read_domain_fetches]
  by_cases h : refresh_needed cfg now files (domain_path cfg domain language)
      force_download = true <;> simp [h]

/-- C2: a `get_domain` call with `force_download` false, for a pair whose
in-memory entry satisfies `now - loaded_at <= cache_time`, returns the
cached MessageSet, leaves the state untouched, and performs no network
fetch and no file I/O. -/
theorem c2_fresh_cache_hit (cfg : Config) (net : Net) (now : Int) (s : IState)
    (domain : String) (language : Option String) (entry : CacheEntry)
    (hentry : alist_get s.domain_cache (domain, resolve_language cfg language) = some entry)
    (hfresh : now - entry.update ≤ cfg.cache_time) :
    get_domain cfg net now s domain language false =
      (Except.ok entry.messages, s, Effects.zero) := by
  have hpres : domain_present cfg now s.domain_cache domain
      (resolve_language cfg language) = true := by
    simp only [domain_present, hentry, is_outdated, Bool.not_eq_true',
      decide_eq_false_iff_not]
    omega
  simp [get_domain, hpres, hentry]

def c2cfg : Config := ⟨none, some "en", "t", false, 3600, some "en"⟩

def c2entry : CacheEntry := ⟨[("k", "v")], 0⟩

def c2state : IState := ⟨[(("d", some "en"), c2entry)], []⟩

def c2net : Net := fun _ _ => none

theorem c2_fresh_cache_hit_witness :
    alist_get c2state.domain_cache ("d", resolve_language c2cfg none) = some c2entry ∧
    (5 : Int) - c2entry.update ≤ c2cfg.cache_time ∧
    get_domain c2cfg c2net 5 c2state "d" none false =
      (Except.ok c2entry.messages, c2state, Effects.zero) :=
  ⟨by decide, by decide,
   c2_fresh_cache_hit c2cfg c2net 5 c2state "d" none c2entry (by decide) (by decide)⟩

def c3cfg : Config := ⟨none, some "en", "tp", false, 3600, some "en"⟩

def c3net : Net := fun _ _ => none

def c3files : Files := [(domain_path c3cfg "d1" (some "en"), ⟨⟨none, some []⟩, 0⟩)]

/-- C3 counterexample: for the response document with a `messages` field
that lacks the requested domain (the document reads as
`\x7b"messages": \x7b\x7d\x7d`), the claim demands `InvalidDomainError("d1")`, but
`read_domain` fails with the Python `KeyError` raised by the subscript
`json_result['messages']['d1']`, which is a different error. -/
theorem c3_counterexample_absent_domain :
    (read_domain c3cfg c3net 0 c3files "d1" (some "en") false).1
        = Except.error (Err.keyError "d1") ∧
    Err.keyError "d1" ≠ Err.invalidDomain "d1" :=
  ⟨rfl, by decide⟩

/-- C3 (amended): for every response document read by `read_domain` (here
from a current file, so the parse is exercised on exactly that document),
an `error` field always wins and fails with RemoteError of its value;
otherwise an absent `messages` field or an absent `messages[domain]` fails
with the subscript's KeyError; a present but empty `messages[domain]`
fails with InvalidDomainError(domain); and only otherwise the call
returns `messages[domain]`. -/
theorem c3_amended_parse_policy (cfg : Config) (net : Net) (now : Int)
    (files : Files) (domain : String) (language : Option String) (f : FileRec)
    (hf : alist_get files (domain_path cfg domain language) = some f)
    (hfresh : now - f.mtime ≤ cfg.cache_time) :
    (∀ e, f.content.error = some e →
      (read_domain cfg net now files domain language false).1
        = Except.error (Err.remoteError e)) ∧
    (f.content.error = none →
      (f.content.messages = none →
        (read_domain cfg net now files domain language false).1
          = Except.error (Err.keyError "messages")) ∧
      (∀ m, f.content.messages = some m →
        (alist_get m domain = none →
          (read_domain cfg net now files domain language false).1
            = Except.error (Err.keyError domain)) ∧
        (alist_get m domain = some [] →
          (read_domain cfg net now files domain language false).1
            = Except.error (Err.invalidDomain domain)) ∧
        (∀ msgs, alist_get m domain = some msgs → msgs ≠ [] →
          (read_domain cfg net now files domain language false).1
            = Except.ok msgs))) := by
  have hrn : refresh_needed cfg now files (domain_path cfg domain language) false
      = false := by
    rw [Bool.eq_false_iff]
    intro hcontra
    rw [refresh_needed_iff] at hcontra
    rcases hcontra with h | h | ⟨f2, hf2, hgt⟩
    · exact Bool.noConfusion h
    · rw [hf] at h; exact Option.noConfusion h
    · rw [hf] at hf2
      injection hf2 with hh
      subst hh
      omega
  have hread : (read_domain cfg net now files domain language false).1
      = parse_document f.content domain := by
    simp [read_domain, hrn, hf]
  refine ⟨?_, ?_⟩
  · intro e he
    rw [hread]
    simp [parse_document, he]
  · intro hnone
    refine ⟨?_, ?_⟩
    · intro hm
      rw [hread]
      simp [parse_document, hnone, hm]
    · intro m hm
      refine ⟨?_, ?_, ?_⟩
      · intro hd
        rw [hread]
        simp [parse_document, hnone, hm, hd]
      · intro hd
        rw [hread]
        simp [parse_document, hnone, hm, hd]
      · intro msgs hd hne
        rw [hread]
        simp [parse_document, hnone, hm, hd, hne]

def c3wdoc : Document := ⟨some "boom", none⟩

def c3wfiles : Files := [(domain_path c3cfg "dw" (some "en"), ⟨c3wdoc, 0⟩)]

theorem c3_amended_parse_policy_witness :
    alist_get c3wfiles (domain_path c3cfg "dw" (some "en")) = some ⟨c3wdoc, 0⟩ ∧
    (0 : Int) - 0 ≤ c3cfg.cache_time ∧
    (read_domain c3cfg c3net 0 c3wfiles "dw" (some "en") false).1
        = Except.error (Err.remoteError "boom") :=
  ⟨by decide, by decide,
   (c3_amended_parse_policy c3cfg c3net 0 c3wfiles "dw" (some "en") ⟨c3wdoc, 0⟩
     (by decide) (by decide)).1 "boom" rfl⟩

theorem get_domain_force_fetches (cfg : Config) (net : Net) (now : Int)
    (s : IState) (domain : String) (language : Option String) :
    (get_domain cfg net now s domain language true).2.2.fetches = 1 := by
  rcases hrd : read_domain cfg net now s.files domain (resolve_language cfg language) true
    with ⟨res, files2, eff⟩
  have heff : eff.fetches = 1 := by
    have hx := read_domain_fetches cfg net now s.files domain
      (resolve_language cfg language) true
    rw [hrd] at hx
    simpa [refresh_needed] using hx
  cases res <;> simp [get_domain, hrd, heff]

/-- C4: when `key` is absent from the MessageSet the primary `get_domain`
call produced: with `update_on_missing` disabled, `get` fails with the
missing-key error immediately, performing no further refresh (its state
and effects are exactly those of that primary call); with it enabled,
exactly one forced re-download is attempted (exactly one extra network
fetch per lookup) and the key is re-checked once, failing with the
missing-key error if still absent.  The missing-key error `lookupFailed`
is `ValueError('No message for that key!')`, the error the spec calls
LookupError. -/
theorem c4_update_on_missing (cfg : Config) (net : Net) (now : Int) (s : IState)
    (key dom : String) (language : Option String) (m1 : MessageSet)
    (s1 : IState) (e1 : Effects)
    (h1 : get_domain cfg net now s dom none false = (Except.ok m1, s1, e1))
    (habs : alist_get m1 key = none) :
    (cfg.update_on_missing = false →
      get cfg net now s key (some dom) language
        = (Except.error (Err.lookupFailed key), s1, e1)) ∧
    (cfg.update_on_missing = true →
      (get cfg net now s key (some dom) language).2.2.fetches = e1.fetches + 1 ∧
      (∀ m2 s2 e2,
        get_domain cfg net now s1 dom language true = (Except.ok m2, s2, e2) →
        alist_get m2 key = none →
        get cfg net now s key (some dom) language
          = (Except.error (Err.lookupFailed key), s2, Effects.add e1 e2))) := by
  constructor
  · intro huom
    simp [get, resolve_domain, h1, habs, huom]
  · intro huom
    constructor
    · rcases h2 : get_domain cfg net now s1 dom language true with ⟨res2, s2, e2⟩
      have he2 : e2.fetches = 1 := by
        have hx := get_domain_force_fetches cfg net now s1 dom language
        rw [h2] at hx
        exact hx
      cases res2 with
      | error e =>
        simp [get, resolve_domain, h1, habs, huom, h2, Effects.add, he2]
      | ok m2 =>
        cases halist2 : alist_get m2 key <;>
          simp [get, resolve_domain, h1, habs, huom, h2, Effects.add, he2, halist2]
    · intro m2 s2 e2 h2 habs2
      simp [get, resolve_domain, h1, habs, huom, h2, habs2]

def c4cfg : Config := ⟨none, some "en", "tp", true, 3600, some "en"⟩

def c4doc : Document := ⟨none, some [("d", [("other", "x")])]⟩

def c4net : Net := fun d l =>
  if d = "d" ∧ l = some "en" then some c4doc else none

def c4s0 : IState := ⟨[], []⟩

def c4m1 : MessageSet := [("other", "x")]

def c4s1 : IState :=
  ⟨[(("d", some "en"), ⟨c4m1, 0⟩)], [(domain_path c4cfg "d" (some "en"), ⟨c4doc, 0⟩)]⟩

def c4e1 : Effects := ⟨1, 1, 1⟩

theorem c4_update_on_missing_witness :
    get_domain c4cfg c4net 0 c4s0 "d" none false = (Except.ok c4m1, c4s1, c4e1) ∧
    alist_get c4m1 "k" = none ∧
    c4cfg.update_on_missing = true ∧
    (get c4cfg c4net 0 c4s0 "k" (some "d") none).2.2.fetches = c4e1.fetches + 1 :=
  ⟨rfl, rfl, rfl,
   ((c4_update_on_missing c4cfg c4net 0 c4s0 "k" "d" none c4m1 c4s1 c4e1
     rfl rfl).2 rfl).1⟩

def c5cfg : Config := ⟨none, some "en", "tp", false, 3600, some "en"⟩

def c5net : Net := fun d l =>
  if d = "d" ∧ l = some "en" then some ⟨none, some [("d", [("k", "hello-en")])]⟩
  else if d = "d" ∧ l = some "fr" then some ⟨none, some [("d", [("k", "bonjour")])]⟩
  else none

/-- C5 (code bug): line 95 of the source calls `self.get_domain(domain)`
without forwarding the caller's `language`, so an explicitly passed
language does not determine which MessageSet is consulted, contrary to
the claim and to the method's own docstring.  Concretely, with the
instance language "en" and an explicit language "fr" whose remote set
maps the key to "bonjour", `get` answers from the "en" set.  The part of
the claim about an unresolvable domain does hold: with no explicit and no
default domain the call fails with `configError`
(`ValueError('No domain given!')`, the spec's ConfigurationError). -/
theorem c5_explicit_language_ignored :
    (get c5cfg c5net 0 ⟨[], []⟩ "k" (some "d") (some "fr")).1 = Except.ok "hello-en" ∧
    c5net "d" (some "fr") = some ⟨none, some [("d", [("k", "bonjour")])]⟩ ∧
    "hello-en" ≠ "bonjour" ∧
    (get c5cfg c5net 0 ⟨[], []⟩ "k" none none).1 = Except.error Err.configError :=
  ⟨rfl, rfl, by decide, rfl⟩

/-- C6 (code bug): `init_language` does fall back to the configured
default language when the `TsIntuition_userlang` key is absent from the
cookie pairs (and picks the key's value when present), but when the
ambient source itself is unavailable — no `HTTP_COOKIE` binding in the
environment — the subscript `os.environ['HTTP_COOKIE']` raises `KeyError`
instead of returning the default, contradicting the claim's
`rather than failing` and the method's own docstring. -/
theorem c6_cookie_fallback :
    init_language (some "en") (some "a=b") = Except.ok (some "en") ∧
    init_language (some "en") (some "a=b;TsIntuition_userlang=nl")
        = Except.ok (some "nl") ∧
    init_language (some "en") none = Except.error Err.cookieKeyError :=
  ⟨rfl, rfl, rfl⟩

theorem get_domain_ok_entry (cfg : Config) (net : Net) (now : Int) (s : IState)
    (domain : String) (language : Option String) (m : MessageSet) (s2 : IState)
    (e : Effects)
    (h : get_domain cfg net now s domain language false = (Except.ok m, s2, e)) :
    ∃ t, alist_get s2.domain_cache (domain, resolve_language cfg language)
        = some ⟨m, t⟩ := by
  unfold get_domain at h
  split at h
  · rcases hrd : read_domain cfg net now s.files domain (resolve_language cfg language)
        false with ⟨res, files2, eff⟩
    rw [hrd] at h
    cases res with
    | error err => simp at h
    | ok msgs =>
      simp only [Prod.mk.injEq, Except.ok.injEq] at h
      obtain ⟨hres, hstate, _⟩ := h
      refine ⟨now, ?_⟩
      rw [← hstate]
      simp [alist_get_set, hres]
  · rcases halist : alist_get s.domain_cache (domain, resolve_language cfg language)
      with _ | entry
    · rw [halist] at h
      simp at h
    · rw [halist] at h
      simp only [Prod.mk.injEq, Except.ok.injEq] at h
      obtain ⟨hres, hstate, _⟩ := h
      exact ⟨entry.update, by rw [← hstate, halist, ← hres]⟩

def c7cfg : Config := ⟨none, some "en", "tp", true, 3600, some "en"⟩

def c7net : Net := fun d l =>
  if d = "d" ∧ l = some "en" then some ⟨none, some [("d", [("other", "x")])]⟩
  else if d = "d" ∧ l = some "fr" then some ⟨none, some [("d", [("k", "v")])]⟩
  else none

/-- C7 counterexample: with `update_on_missing` enabled, instance language
"en", explicit call language "fr", and a key that exists only in the "fr"
message set, a first `get` succeeds (value "v").  The second, identical,
call made at the same instant — every cached timestamp well within the
one-hour window — succeeds with the same value but still performs a
network fetch (count 1, not 0), because the forced update-on-missing
re-download bypasses every cache layer.  The second call therefore has an
observable side effect, contradicting the claim. -/
theorem c7_counterexample_forced_refetch :
    (get c7cfg c7net 0 ⟨[], []⟩ "k" (some "d") (some "fr")).1 = Except.ok "v" ∧
    (get c7cfg c7net 0
        (get c7cfg c7net 0 ⟨[], []⟩ "k" (some "d") (some "fr")).2.1
        "k" (some "d") (some "fr")).1 = Except.ok "v" ∧
    (get c7cfg c7net 0
        (get c7cfg c7net 0 ⟨[], []⟩ "k" (some "d") (some "fr")).2.1
        "k" (some "d") (some "fr")).2.2.fetches = 1 :=
  ⟨rfl, rfl, rfl⟩

/-- C7 (amended): two consecutive identical `get` calls within the cache
window return the same value, and the second call leaves the state
untouched and performs no network or file I/O — provided the first call
found the key in the MessageSet its primary (non-forced) `get_domain`
lookup produced, i.e. it did not go through the forced update-on-missing
re-download path. -/
theorem c7_amended_idempotent (cfg : Config) (net : Net) (now1 now2 : Int)
    (s : IState) (key : String) (dom : Option String) (language : Option String)
    (d : String) (m1 : MessageSet) (s1 : IState) (e1 : Effects) (v : String)
    (hd : resolve_domain cfg dom = some d)
    (h1 : get_domain cfg net now1 s d none false = (Except.ok m1, s1, e1))
    (hkey : alist_get m1 key = some v)
    (hfresh : domain_present cfg now2 s1.domain_cache d (resolve_language cfg none)
        = true) :
    get cfg net now1 s key dom language = (Except.ok v, s1, e1) ∧
    get cfg net now2 s1 key dom language = (Except.ok v, s1, Effects.zero) := by
  obtain ⟨t, hent⟩ := get_domain_ok_entry cfg net now1 s d none m1 s1 e1 h1
  have hsecond : get_domain cfg net now2 s1 d none false
      = (Except.ok m1, s1, Effects.zero) := by
    unfold get_domain
    simp [hfresh, hent]
  constructor
  · simp [get, hd, h1, hkey]
  · simp [get, hd, hsecond, hkey]

def c7wcfg : Config := ⟨none, some "en", "tp", false, 3600, some "en"⟩

def c7wdoc : Document := ⟨none, some [("d", [("k", "v")])]⟩

def c7wnet : Net := fun d l =>
  if d = "d" ∧ l = some "en" then some c7wdoc else none

def c7wm1 : MessageSet := [("k", "v")]

def c7ws1 : IState :=
  ⟨[(("d", some "en"), ⟨c7wm1, 0⟩)],
   [(domain_path c7wcfg "d" (some "en"), ⟨c7wdoc, 0⟩)]⟩

theorem c7_amended_idempotent_witness :
    resolve_domain c7wcfg (some "d") = some "d" ∧
    get_domain c7wcfg c7wnet 0 ⟨[], []⟩ "d" none false
        = (Except.ok c7wm1, c7ws1, ⟨1, 1, 1⟩) ∧
    alist_get c7wm1 "k" = some "v" ∧
    domain_present c7wcfg 10 c7ws1.domain_cache "d" (resolve_language c7wcfg none)
        = true ∧
    get c7wcfg c7wnet 10 c7ws1 "k" (some "d") none
        = (Except.ok "v", c7ws1, Effects.zero) :=
  ⟨rfl, rfl, rfl, rfl,
   (c7_amended_idempotent c7wcfg c7wnet 0 10 ⟨[], []⟩ "k" (some "d") none "d"
      c7wm1 c7ws1 ⟨1, 1, 1⟩ "v" rfl rfl rfl rfl).2⟩

theorem get_domain_cache_update (cfg : Config) (net : Net) (now : Int) (s : IState)
    (domain : String) (language : Option String) (force : Bool)
    (p : String × Option String) :
    alist_get (get_domain cfg net now s domain language force).2.1.domain_cache p
        = alist_get s.domain_cache p ∨
    ∃ m, alist_get (get_domain cfg net now s domain language force).2.1.domain_cache p
        = some ⟨m, now⟩ := by
  unfold get_domain
  split
  · rcases read_domain cfg net now s.files domain (resolve_language cfg language)
        force with ⟨res, files2, eff⟩
    cases res with
    | error err => exact Or.inl rfl
    | ok msgs =>
      by_cases hkey : (domain, resolve_language cfg language) = p
      · exact Or.inr ⟨msgs, by simp [alist_get_set, hkey]⟩
      · exact Or.inl (by simp [alist_get_set, hkey])
  · rcases alist_get s.domain_cache (domain, resolve_language cfg language)
      with _ | entry <;> exact Or.inl rfl

theorem cache_update_trans {c0 c1 c2 : DomainCache} {now : Int}
    (p : String × Option String)
    (h1 : alist_get c1 p = alist_get c0 p ∨ ∃ m, alist_get c1 p = some ⟨m, now⟩)
    (h2 : alist_get c2 p = alist_get c1 p ∨ ∃ m, alist_get c2 p = some ⟨m, now⟩) :
    alist_get c2 p = alist_get c0 p ∨ ∃ m, alist_get c2 p = some ⟨m, now⟩ := by
  rcases h2 with h2 | ⟨m, hm⟩
  · rcases h1 with h1 | ⟨m, hm⟩
    · exact Or.inl (h2.trans h1)
    · exact Or.inr ⟨m, h2.trans hm⟩
  · exact Or.inr ⟨m, hm⟩

/-- C8: every operation replaces in-memory entries only wholesale.  After
any `get_domain` and after any `get`, each (domain, language) slot of the
cache is either exactly what it was before the call, or a whole new entry
— messages and timestamp set together, the timestamp being the call's
`now`.  No individual key of an existing entry's mapping is ever added,
removed or changed. -/
theorem c8_wholesale_replacement (cfg : Config) (net : Net) (now : Int) (s : IState)
    (domain : String) (language : Option String) (force : Bool)
    (key : String) (dom2 lang2 : Option String) (p : String × Option String) :
    (alist_get (get_domain cfg net now s domain language force).2.1.domain_cache p
        = alist_get s.domain_cache p ∨
     ∃ m, alist_get (get_domain cfg net now s domain language force).2.1.domain_cache p
        = some ⟨m, now⟩) ∧
    (alist_get (get cfg net now s key dom2 lang2).2.1.domain_cache p
        = alist_get s.domain_cache p ∨
     ∃ m, alist_get (get cfg net now s key dom2 lang2).2.1.domain_cache p
        = some ⟨m, now⟩) := by
  refine ⟨get_domain_cache_update cfg net now s domain language force p, ?_⟩
  unfold get
  split
  · exact Or.inl rfl
  · rename_i d hres
    split
    · rename_i e1 s1 eff1 hg1
      have step1 := get_domain_cache_update cfg net now s d none false p
      rw [hg1] at step1
      exact step1
    · rename_i m1 s1 eff1 hg1
      have step1 := get_domain_cache_update cfg net now s d none false p
      rw [hg1] at step1
      split
      · split
        · rename_i e2 s2 eff2 hg2
          have step2 := get_domain_cache_update cfg net now s1 d lang2 true p
          rw [hg2] at step2
          exact cache_update_trans p step1 step2
        · rename_i m2 s2 eff2 hg2
          have step2 := get_domain_cache_update cfg net now s1 d lang2 true p
          rw [hg2] at step2
          split <;> exact cache_update_trans p step1 step2
      · split <;> exact step1

/-- C9: whenever the `read_domain` call that `get_domain` would make (same
files, resolved language, same flag) fails, `get_domain` leaves the
in-memory domain cache exactly as it was: no entry created, no existing
entry's messages or timestamp changed. -/
theorem c9_error_preserves_cache (cfg : Config) (net : Net) (now : Int)
    (s : IState) (domain : String) (language : Option String) (force : Bool)
    (e : Err) (files2 : Files) (eff : Effects)
    (h : read_domain cfg net now s.files domain (resolve_language cfg language) force
        = (Except.error e, files2, eff)) :
    (get_domain cfg net now s domain language force).2.1.domain_cache
        = s.domain_cache := by
  unfold get_domain
  split
  · rw [h]
  · rcases alist_get s.domain_cache (domain, resolve_language cfg language)
      with _ | entry <;> rfl

def c9cfg : Config := ⟨none, some "en", "tp", false, 3600, some "en"⟩

def c9doc : Document := ⟨some "boom", none⟩

def c9net : Net := fun d l =>
  if d = "d" ∧ l = some "en" then some c9doc else none

def c9s0 : IState := ⟨[], []⟩

theorem c9_error_preserves_cache_witness :
    read_domain c9cfg c9net 0 c9s0.files "d" (resolve_language c9cfg none) false
        = (Except.error (Err.remoteError "boom"),
           [(domain_path c9cfg "d" (some "en"), ⟨c9doc, 0⟩)], ⟨1, 1, 1⟩) ∧
    (get_domain c9cfg c9net 0 c9s0 "d" none false).2.1.domain_cache
        = c9s0.domain_cache :=
  ⟨rfl,
   c9_error_preserves_cache c9cfg c9net 0 c9s0 "d" none false
     (Err.remoteError "boom")
     [(domain_path c9cfg "d" (some "en"), ⟨c9doc, 0⟩)] ⟨1, 1, 1⟩ rfl⟩

/-- C10: whenever `read_domain` performs a refresh and the network answers
with a document, the on-disk file for the pair already holds that document
verbatim — modification time stamped `now` — in the resulting file
system, and the call's outcome is exactly the parse of that document.  So
on a payload carrying an `error` field, or an absent or empty
`messages[domain]`, the file has been overwritten with the failing
payload even though the call then fails. -/
theorem c10_file_written_before_failure (cfg : Config) (net : Net) (now : Int)
    (files : Files) (domain : String) (language : Option String) (force : Bool)
    (doc : Document)
    (href : refresh_needed cfg now files (domain_path cfg domain language) force
        = true)
    (hnet : net domain language = some doc) :
    alist_get (read_domain cfg net now files domain language force).2.1
        (domain_path cfg domain language) = some ⟨doc, now⟩ ∧
    (read_domain cfg net now files domain language force).1
        = parse_document doc domain := by
  unfold read_domain
  rw [if_pos href, hnet]
  exact ⟨by simp [alist_get_set], rfl⟩

def c10cfg : Config := ⟨none, some "en", "tp", false, 3600, some "en"⟩

def c10old : Document := ⟨none, some [("d", [("k", "v")])]⟩

def c10bad : Document := ⟨some "boom", none⟩

def c10net : Net := fun d l =>
  if d = "d" ∧ l = some "en" then some c10bad else none

def c10files : Files := [(domain_path c10cfg "d" (some "en"), ⟨c10old, 0⟩)]

theorem c10_file_written_before_failure_witness :
    refresh_needed c10cfg 4000 c10files (domain_path c10cfg "d" (some "en")) false
        = true ∧
    c10net "d" (some "en") = some c10bad ∧
    alist_get c10files (domain_path c10cfg "d" (some "en")) = some ⟨c10old, 0⟩ ∧
    c10old ≠ c10bad ∧
    parse_document c10bad "d" = Except.error (Err.remoteError "boom") ∧
    alist_get (read_domain c10cfg c10net 4000 c10files "d" (some "en") false).2.1
        (domain_path c10cfg "d" (some "en")) = some ⟨c10bad, 4000⟩ :=
  ⟨by decide, rfl, by decide, by decide, rfl,
   (c10_file_written_before_failure c10cfg c10net 4000 c10files "d" (some "en")
      false c10bad (by decide) rfl).1⟩

end PyIntuition
